import Mathlib

/-!
Verification of the portodash price-resolution and snapshot-persistence core.

This file is a shallow embedding of the relevant parts of the repository:

* `portodash/data_fetch.py` — `get_current_prices`, `fetch_and_store_snapshot`;
* `portodash/cache.py` — `get_cached_prices`;
* `portodash/fx.py` — `get_fx_rates`;
* `app.py` — the session-state price block of `main` (cooldown handling and
  the live-fetch / cache branch).

Modelling conventions:

* machine floats are embedded as `ℚ` (the arithmetic in the source is plain
  `+ * /` on floats; the algebraic claims are stated exactly over `ℚ`);
* UTC timestamps are `Nat` seconds since the epoch; a calendar day is
  `t / 86400` (pandas `normalize()` truncates a timestamp to its day);
* every fallible external operation (the yfinance download, the CSV cache
  read, the FX HTTP fetch) is modelled by a datatype enumerating the caught
  outcomes, mirroring the `try`/`except` structure of the source, so the
  embedded functions are total exactly because the Python functions catch
  those exceptions.
-/

/-- Provenance tag of a resolved price (`origins[t]` in `get_current_prices`). -/
inductive Origin where
  | live
  | cache
deriving DecidableEq, Repr

/-- One ticker's resolution state inside `get_current_prices`: the entries of
the `prices`, `origins` and `times` dictionaries for that ticker. -/
structure Quote where
  price : Option ℚ
  origin : Option Origin
  qtime : Option Nat
deriving DecidableEq, Repr

/-- Outcome of the `yf.download` call in `get_current_prices`
(`data_fetch.py:50-105`): a MultiIndex frame (per-ticker last `Adj Close`,
absent when `data[t]["Adj Close"].dropna()` is empty or the column is
missing — both raise and are caught per ticker), a flat frame (one shared
last `Adj Close`, absent when that series is empty), or an exception from
the download itself (`raised`, with the flag telling whether the message
indicates a rate limit — the flag only affects logging). -/
inductive DownloadOutcome where
  | multi (tbl : List (String × ℚ))
  | flat (v : Option ℚ)
  | raised (isRateLimit : Bool)
deriving DecidableEq, Repr

/-- A row of the historical snapshot CSV as read back by the cache
(`cache.py`): only the columns `get_cached_prices` touches. -/
structure CacheRow where
  date : Nat
  ticker : String
  price : ℚ
deriving DecidableEq, Repr

/-- State of the historical CSV as seen by `get_cached_prices`
(`cache.py:28-37,80-82`): file missing, unreadable (`pd.read_csv` raises,
caught at `cache.py:80`), or a parsed table of rows. -/
inductive CacheState where
  | missing
  | corrupt
  | table (rows : List CacheRow)
deriving DecidableEq, Repr

/-- `recent.sort_values('date').groupby('ticker').last()` restricted to one
ticker (`cache.py:55`): the row with the greatest date; among rows with
equal dates the later row in file order wins (the sort is stable and
`last()` takes the last row of the group). -/
def latestFor (rows : List CacheRow) (t : String) : Option CacheRow :=
  rows.foldl
    (fun acc r =>
      if r.ticker = t then
        match acc with
        | none => some r
        | some a => if a.date ≤ r.date then some r else some a
      else acc)
    none

/-- `get_cached_prices` (`cache.py:12-82`) specialised to one ticker: the
price and timestamp the cache returns for `t`, or `none` when the file is
missing, unreadable, empty, has no row within the age window, or has no row
for `t` among the recent rows. -/
def cachedFor (cs : CacheState) (now maxAgeHours : Nat) (t : String) : Option (ℚ × Nat) :=
  match cs with
  | .missing => none
  | .corrupt => none
  | .table rows =>
    if rows = [] then none
    else
      let cutoff : Int := (now : Int) - (maxAgeHours : Int) * 3600
      let recent := rows.filter (fun r => cutoff ≤ (r.date : Int))
      if recent = [] then none
      else (latestFor recent t).map (fun r => (r.price, r.date))

/-- `get_cached_prices` (`cache.py:12-82`): per-ticker prices and timestamps,
`none` for tickers not found or too old. -/
def get_cached_prices (tickers : List String) (cs : CacheState) (now maxAgeHours : Nat) :
    List (String × Option (ℚ × Nat)) :=
  tickers.map (fun t => (t, cachedFor cs now maxAgeHours t))

/-- Column lookup `data[t]` in the MultiIndex branch (`data_fetch.py:66`). -/
def lookupQ (tbl : List (String × ℚ)) (t : String) : Option ℚ :=
  (tbl.find? (fun p => p.1 = t)).map (fun p => p.2)

/-- The live-fetch part of `get_current_prices` (`data_fetch.py:50-105`) for
one ticker: MultiIndex frames price each ticker from its own column, a flat
frame prices every ticker from the single last value
(`data_fetch.py:73-85`), a download exception leaves every ticker unpriced
(`data_fetch.py:103-105`). Live timestamps are `datetime.utcnow()`, the call
time `now`. -/
def liveQuote (dl : DownloadOutcome) (now : Nat) (t : String) : Quote :=
  match dl with
  | .multi tbl =>
    match lookupQ tbl t with
    | some v => ⟨some v, some .live, some now⟩
    | none => ⟨none, none, none⟩
  | .flat (some v) => ⟨some v, some .live, some now⟩
  | .flat none => ⟨none, none, none⟩
  | .raised _ => ⟨none, none, none⟩

/-- The cache-fallback merge of `get_current_prices` (`data_fetch.py:110-115`):
a ticker still unpriced takes the cached price, provenance `cache`, and the
cache record's own timestamp. -/
def mergeCached (q : Quote) (c : Option (ℚ × Nat)) : Quote :=
  if q.price = none then
    match c with
    | some pt => ⟨some pt.1, some .cache, some pt.2⟩
    | none => q
  else q

/-- Python's `max(list)` on a nonempty list of timestamps
(`data_fetch.py:132`); `none` on the empty list. -/
def listMax1 : List Nat → Option Nat
  | [] => none
  | x :: xs => some (xs.foldl Nat.max x)

/-- String form of an origin, as stored in `origins[t]`. -/
def originStr : Origin → String
  | .live => "live"
  | .cache => "cache"

/-- The overall source label (`data_fetch.py:138-145`):
`uniq = set(o for o in origins.values() if o is not None)`, then `live` or
`cache` when the set is a singleton, `unknown` when empty, `mixed`
otherwise. The argument is the list of non-`None` origins; `dedup` plays the
role of `set`. -/
def sourceOf (origins : List Origin) : String :=
  match origins.dedup with
  | [o] => originStr o
  | [] => "unknown"
  | _ => "mixed"

/-- The authoritative `fetched_at` (`data_fetch.py:117-136`): the maximum of
the per-ticker timestamps that are set, falling back to call-time `now` when
none are. -/
def authoritativeTs (quotes : List (String × Quote)) (now : Nat) : Nat :=
  (listMax1 (quotes.filterMap (fun p => p.2.qtime))).getD now

/-- The triple `get_current_prices` returns (`data_fetch.py:147`), with the
per-ticker dictionaries kept as an association list in ticker order. -/
structure PricesResult where
  quotes : List (String × Quote)
  fetchedAt : Nat
  source : String
deriving DecidableEq, Repr

/-- `get_current_prices` (`data_fetch.py:14-147`). `cachePath = none` models
calling without `csv_path`; the cache is consulted only when a path is given
and some price is still missing (`data_fetch.py:108`). `fetchedAt` is the
maximum of the per-ticker timestamps, falling back to call-time `now`
(`data_fetch.py:117-136`); `source` collapses the set of non-`None` origins
(`data_fetch.py:138-145`). -/
def resolveQuotes (tickers : List String) (dl : DownloadOutcome)
    (cachePath : Option CacheState) (now : Nat) (cacheMaxAgeHours : Nat) :
    List (String × Quote) :=
  let live := tickers.map (fun t => (t, liveQuote dl now t))
  match cachePath with
  | some cs =>
    if live.any (fun p => p.2.price = none) then
      tickers.map (fun t =>
        (t, mergeCached (liveQuote dl now t) (cachedFor cs now cacheMaxAgeHours t)))
    else live
  | none => live

def get_current_prices (tickers : List String) (dl : DownloadOutcome)
    (cachePath : Option CacheState) (now : Nat) (cacheMaxAgeHours : Nat) : PricesResult :=
  let quotes := resolveQuotes tickers dl cachePath now cacheMaxAgeHours
  ⟨quotes, authoritativeTs quotes now, sourceOf (quotes.filterMap (fun p => p.2.origin))⟩

/-- A holding record from the portfolio configuration, as read by
`fetch_and_store_snapshot` (`data_fetch.py:209-221`). `Option` fields model
the `dict.get` fallbacks (a missing or falsy value is `none`). -/
structure Holding where
  ticker : String
  shares : ℚ
  cost_basis : ℚ
  account_nickname : Option String
  account : Option String
deriving DecidableEq, Repr

/-- A row of the snapshot CSV written by `fetch_and_store_snapshot`
(`data_fetch.py:225-235`); `date` keeps the full timestamp. -/
structure SnapRow where
  date : Nat
  account : String
  ticker : String
  shares : ℚ
  cost_basis : ℚ
  price : ℚ
  current_value : ℚ
  portfolio_value : ℚ
  allocation_pct : ℚ
deriving DecidableEq, Repr

/-- `pd.to_datetime(ts).normalize()`: a timestamp truncated to its UTC day. -/
def dayOf (t : Nat) : Nat := t / 86400

/-- `prices.get(t) or 0.0` (`data_fetch.py:212,222`): a missing key, a `None`
price, and a zero price all yield `0.0`. -/
def priceOf (prices : List (String × Option ℚ)) (t : String) : ℚ :=
  match (prices.find? (fun p => p.1 = t)).map (fun p => p.2) with
  | some (some p) => p
  | _ => 0

/-- `h.get('account_nickname') or h.get('account', 'Default')`
(`data_fetch.py:219`), with falsy values modelled as `none`. -/
def accountOf (h : Holding) : String :=
  match h.account_nickname with
  | some a => a
  | none => h.account.getD "Default"

/-- The batch total `Σ shares × price` (`data_fetch.py:208-214`). -/
def snapshotTotal (holdings : List Holding) (prices : List (String × Option ℚ)) : ℚ :=
  (holdings.map (fun h => h.shares * priceOf prices h.ticker)).sum

/-- The row set one `fetch_and_store_snapshot` call computes
(`data_fetch.py:207-237`): per holding, `current_value = shares × price`,
the shared `portfolio_value`, and `allocation_pct = current_value / total`
when the total is positive, else `0`. -/
def snapshotRows (holdings : List Holding) (prices : List (String × Option ℚ))
    (now : Nat) : List SnapRow :=
  let total := snapshotTotal holdings prices
  holdings.map (fun h =>
    let p := priceOf prices h.ticker
    let cv := h.shares * p
    { date := now
      account := accountOf h
      ticker := h.ticker
      shares := h.shares
      cost_basis := h.cost_basis
      price := p
      current_value := cv
      portfolio_value := total
      allocation_pct := if 0 < total then cv / total else 0 })

/-- The store content after a completed `fetch_and_store_snapshot` call
(`data_fetch.py:239-263`): rows of the same UTC day as `obs` are dropped and
the freshly computed rows appended; a missing file behaves as the empty
store. -/
def fetch_and_store_snapshot (store : List SnapRow) (holdings : List Holding)
    (prices : List (String × Option ℚ)) (obs : Nat) : List SnapRow :=
  store.filter (fun r => dayOf r.date ≠ dayOf obs) ++ snapshotRows holdings prices obs

/-- The store content when the final `combined_df.to_csv(csv_path)`
(`data_fetch.py:260`) fails after `k` rows have been written: `to_csv` opens
the path in mode `w`, truncating the previous content, and streams the
combined frame, so an exception mid-write leaves the file holding exactly
the first `k` rows of the combined content (there is no
write-to-temp-then-rename step in the source). -/
def fetch_and_store_snapshot_failed (store : List SnapRow) (holdings : List Holding)
    (prices : List (String × Option ℚ)) (obs : Nat) (k : Nat) : List SnapRow :=
  (fetch_and_store_snapshot store holdings prices obs).take k

/-- The FX cache blob `{"_fetched_at": ..., "rates": ...}` (`fx.py:85`). -/
structure FxCacheEntry where
  fetchedAt : Nat
  rates : List (String × ℚ)
deriving DecidableEq, Repr

/-- State of `logs/fx_rates.json` as seen by `get_fx_rates` (`fx.py:43-55`):
missing, unreadable or lacking `_fetched_at` (both fall through to the
fetch), or a parsed entry. -/
inductive FxCacheFile where
  | missing
  | corrupt
  | entry (e : FxCacheEntry)
deriving DecidableEq, Repr

/-- Outcome of the `requests.get` call in `get_fx_rates` (`fx.py:58-93`):
a successful payload (the provider's `rates` table anchored at `base`),
a payload whose `result` field is not `"success"` (`fx.py:65-67`), or an
exception from the request (`fx.py:90-93`). -/
inductive FxFetchOutcome where
  | ok (baseRates : List (String × ℚ))
  | nonSuccess
  | err
deriving DecidableEq, Repr

/-- What one `get_fx_rates` call produces: the returned mapping, the cache
file afterwards, and whether the network fetch path ran. -/
structure FxResult where
  rates : List (String × ℚ)
  cacheAfter : FxCacheFile
  didFetch : Bool
deriving DecidableEq, Repr

/-- Python's `str.upper()` on the ASCII currency codes handled here,
character by character. -/
def pyUpper (s : String) : String :=
  ⟨s.data.map Char.toUpper⟩

/-- `{c.upper() for c in currencies if c and c.upper() != base.upper()}`
(`fx.py:36`); the set is modelled as a deduplicated list. -/
def normCurrs (currencies : List String) (base : String) : List String :=
  (((currencies.filter (fun c => c ≠ "")).map pyUpper).filter
    (fun c => c ≠ pyUpper base)).dedup

/-- `rates.get(c)` on an embedded JSON map. -/
def lookupRate (rs : List (String × ℚ)) (c : String) : Option ℚ :=
  (rs.find? (fun p => p.1 = c)).map (fun p => p.2)

/-- `get_fx_rates` (`fx.py:27-93`). An empty currency set returns `{}` before
any cache or network access; a cache entry strictly younger than
`max_age_hours` answers with the requested currencies present in its map;
otherwise the fetch runs: on success the inverted rates for the requested
currencies are returned and persisted (replacing the cache file), on a
non-success payload or an exception `{}` is returned and the cache is left
alone. The cache-write `try` (`fx.py:83-87`) is modelled as succeeding. -/
def get_fx_rates (currencies : List String) (base : String) (maxAgeHours : Nat)
    (cacheFile : FxCacheFile) (now : Nat) (fetch : FxFetchOutcome) : FxResult :=
  let currs := normCurrs currencies base
  if currs = [] then ⟨[], cacheFile, false⟩
  else
    let fromCache : Option (List (String × ℚ)) :=
      match cacheFile with
      | .entry e =>
        if (now : Int) - (e.fetchedAt : Int) < (maxAgeHours : Int) * 3600 then
          some (currs.filterMap (fun c => (lookupRate e.rates c).map (fun v => (c, v))))
        else none
      | _ => none
    match fromCache with
    | some res => ⟨res, cacheFile, false⟩
    | none =>
      match fetch with
      | .ok baseRates =>
        let out := currs.filterMap (fun c =>
          match lookupRate baseRates c with
          | some v => if v = 0 then none else some (c, 1 / v)
          | none => none)
        ⟨out, .entry ⟨now, out⟩, true⟩
      | .nonSuccess => ⟨[], cacheFile, true⟩
      | .err => ⟨[], cacheFile, true⟩

/-- The Streamlit session-state fields of `app.py:101-117` that the price
block reads and writes. `pricesCache = []` models the falsy empty dict. -/
structure SessionState where
  pricesCache : List (String × Option ℚ)
  fetchedAtIso : Option Nat
  priceSource : Option String
  rateLimitedUntil : Option Nat
  lastError : Option String
deriving DecidableEq, Repr

/-- What one run of the app's price block yields: the session state after,
whether the live fetch (`get_current_prices`) ran, and the prices and source
the rest of the page renders. -/
structure AppStepResult where
  state : SessionState
  didLiveFetch : Bool
  prices : List (String × Option ℚ)
  source : Option String
deriving DecidableEq, Repr

/-- `app.py:246-252`: clear the extended cooldown once it has expired. -/
def expireCooldown (s : SessionState) (now : Nat) : SessionState :=
  match s.rateLimitedUntil with
  | some b =>
    if now < b then s else { s with rateLimitedUntil := none, lastError := none }
  | none => s

/-- `app.py:289`: `st.session_state.rate_limited_until and now <
st.session_state.rate_limited_until`. -/
def isBlocked (s : SessionState) (now : Nat) : Bool :=
  match s.rateLimitedUntil with
  | some b => decide (now < b)
  | none => false

/-- The price block of `app.py:main` (`app.py:236-360`) for one rerun:
expire the extended cooldown when `now ≥ rate_limited_until`
(`app.py:246-252`); fetch only when the session price cache is empty
(`app.py:287`); while the cooldown is armed, skip the live fetch and load
from the historical CSV via `get_cached_prices` (`app.py:289-306`, default
72-hour window); otherwise call `get_current_prices` (`app.py:315`) — the
call returns normally on every download and cache outcome (it catches those
errors internally, see `getCurrentPricesNeverRaises`), so the `try` succeeds and the state
update of `app.py:317-324` runs, clearing `rate_limited_until`; the
`except` handler of `app.py:329-350`, which would arm
`rate_limited_until = now + 3600`, is consequently unreachable and has no
counterpart here. -/
def appPriceStep (s0 : SessionState) (tickers : List String) (now : Nat)
    (dl : DownloadOutcome) (cs : CacheState) : AppStepResult :=
  let s := expireCooldown s0 now
  let blocked := isBlocked s now
  if s.pricesCache = [] then
    if blocked then
      let cached := (get_cached_prices tickers cs now 72).map
        (fun p => (p.1, p.2.map (fun x => x.1)))
      if cached = [] then ⟨s, false, s.pricesCache, s.priceSource⟩
      else
        let s1 := { s with
          pricesCache := cached
          priceSource := some "cache"
          fetchedAtIso := some (s.fetchedAtIso.getD now) }
        ⟨s1, false, cached, some "cache"⟩
    else
      let r := get_current_prices tickers dl (some cs) now 72
      let s1 := { s with
        pricesCache := r.quotes.map (fun p => (p.1, p.2.price))
        fetchedAtIso := some r.fetchedAt
        priceSource := some r.source
        lastError := none
        rateLimitedUntil := none }
      ⟨s1, true, s1.pricesCache, some r.source⟩
  else ⟨s, false, s.pricesCache, s.priceSource⟩

/-- A live quote with no price carries no origin and no timestamp: the three
dictionaries are assigned together in every branch of `data_fetch.py:63-105`. -/
lemma liveQuote_eq_of_price_none {dl : DownloadOutcome} {now : Nat} {t : String}
    (h : (liveQuote dl now t).price = none) : liveQuote dl now t = ⟨none, none, none⟩ := by
  cases dl with
  | multi tbl =>
    cases hc : lookupQ tbl t with
    | none => simp [liveQuote, hc]
    | some v => simp [liveQuote, hc] at h
  | flat v =>
    cases v with
    | none => rfl
    | some v => simp [liveQuote] at h
  | raised b => rfl

/-- The source label can only be one of the four strings the code produces. -/
lemma sourceOf_cases (l : List Origin) :
    sourceOf l = "live" ∨ sourceOf l = "cache" ∨ sourceOf l = "mixed"
      ∨ sourceOf l = "unknown" := by
  unfold sourceOf
  rcases hd : l.dedup with _ | ⟨o, _ | ⟨o2, rest⟩⟩
  · simp
  · cases o <;> simp [originStr]
  · simp

/-- The quotes of `get_current_prices` are keyed by the requested tickers, in
order. -/
lemma resolveQuotes_fst (tickers : List String) (dl : DownloadOutcome)
    (cachePath : Option CacheState) (now ma : Nat) :
    (resolveQuotes tickers dl cachePath now ma).map Prod.fst = tickers := by
  cases cachePath with
  | none => simp [resolveQuotes, Function.comp_def]
  | some cs =>
    simp only [resolveQuotes]
    split <;> simp [Function.comp_def]

lemma get_current_prices_quotes_fst (tickers : List String) (dl : DownloadOutcome)
    (cachePath : Option CacheState) (now ma : Nat) :
    (get_current_prices tickers dl cachePath now ma).quotes.map Prod.fst = tickers :=
  resolveQuotes_fst tickers dl cachePath now ma

/-- C6. For every combination of live-fetch outcome (success, empty data,
rate-limited, transport error — all values of `DownloadOutcome`) and cache
state (file missing, empty, populated, or unreadable — all values of
`Option CacheState`), `get_current_prices` returns a well-formed
(prices, fetched_at, source) result: its function body handles every
outcome, so no exception propagates; the result covers every requested
ticker and carries one of the four source labels the code can produce. -/
theorem getCurrentPricesNeverRaises (tickers : List String) (dl : DownloadOutcome)
    (cachePath : Option CacheState) (now ma : Nat) :
    (get_current_prices tickers dl cachePath now ma).quotes.map Prod.fst = tickers
    ∧ ((get_current_prices tickers dl cachePath now ma).source = "live"
        ∨ (get_current_prices tickers dl cachePath now ma).source = "cache"
        ∨ (get_current_prices tickers dl cachePath now ma).source = "mixed"
        ∨ (get_current_prices tickers dl cachePath now ma).source = "unknown") := by
  exact ⟨get_current_prices_quotes_fst tickers dl cachePath now ma,
    sourceOf_cases _⟩

/-- C9. When the downloaded frame has flat (non-MultiIndex) columns with a
last adjusted close `v` and more than one ticker was requested, every
requested ticker is assigned that same value, tagged `live` with the call
time, exactly as `data_fetch.py:73-85` loops `for t in tickers` over the one
value. -/
theorem flatColumnsSharedPrice (tickers : List String) (v : ℚ)
    (cachePath : Option CacheState) (now ma : Nat) (h2 : 2 ≤ tickers.length) :
    (get_current_prices tickers (.flat (some v)) cachePath now ma).quotes
      = tickers.map (fun t => (t, (⟨some v, some .live, some now⟩ : Quote))) := by
  show resolveQuotes tickers (.flat (some v)) cachePath now ma = _
  cases cachePath with
  | none => simp [resolveQuotes, liveQuote]
  | some cs => simp [resolveQuotes, liveQuote]

/-- C9 witness: two tickers, flat frame with last value 7. -/
theorem flatColumnsSharedPrice_witness :
    (get_current_prices ["AAA", "BBB"] (.flat (some 7)) (some .missing) 5 72).quotes
      = [("AAA", (⟨some 7, some .live, some 5⟩ : Quote)),
         ("BBB", (⟨some 7, some .live, some 5⟩ : Quote))] :=
  flatColumnsSharedPrice ["AAA", "BBB"] 7 (some .missing) 5 72 (by decide)

/-- C1 counterexample: one ticker, the download raises a transport error,
the cache file is missing — a total failure — yet the source label is
`"unknown"` (`data_fetch.py:143`), not the `"unavailable"` the claim
states. -/
theorem totalFailureLabelCounterexample :
    ((get_current_prices ["AAA"] (.raised false) (some .missing) 0 72).quotes.all
      (fun p => p.2.price = none))
    ∧ (get_current_prices ["AAA"] (.raised false) (some .missing) 0 72).source
        ≠ "unavailable" := by decide

/-- C1 (amended). If for every requested ticker the live fetch fails to
produce a price and the cache lookup fails to produce a price (total
failure), `get_current_prices` returns a result in which every ticker's
price is absent and the overall source label is `"unknown"` (the code's
label for "no origin at all", `data_fetch.py:142-143`). -/
theorem totalFailureAllAbsent (tickers : List String) (dl : DownloadOutcome)
    (cs : CacheState) (now ma : Nat)
    (hlive : ∀ t ∈ tickers, (liveQuote dl now t).price = none)
    (hcache : ∀ t ∈ tickers, cachedFor cs now ma t = none) :
    (∀ p ∈ (get_current_prices tickers dl (some cs) now ma).quotes, p.2.price = none)
    ∧ (get_current_prices tickers dl (some cs) now ma).source = "unknown" := by
  have hq : ∀ t ∈ tickers, liveQuote dl now t = ⟨none, none, none⟩ :=
    fun t ht => liveQuote_eq_of_price_none (hlive t ht)
  have hquotes : resolveQuotes tickers dl (some cs) now ma
      = tickers.map (fun t => (t, (⟨none, none, none⟩ : Quote))) := by
    simp only [resolveQuotes]
    split
    · refine List.map_congr_left (fun t ht => ?_)
      rw [hq t ht, hcache t ht]
      simp [mergeCached]
    · refine List.map_congr_left (fun t ht => ?_)
      rw [hq t ht]
  constructor
  · intro p hp
    have hp' : p ∈ tickers.map (fun t => (t, (⟨none, none, none⟩ : Quote))) := by
      rw [← hquotes]; exact hp
    obtain ⟨t, _, rfl⟩ := List.mem_map.mp hp'
    rfl
  · show sourceOf ((resolveQuotes tickers dl (some cs) now ma).filterMap
        (fun p => p.2.origin)) = "unknown"
    have hnil : List.filterMap
        ((fun p : String × Quote => p.2.origin)
          ∘ fun t : String => (t, (⟨none, none, none⟩ : Quote))) tickers = [] :=
      List.filterMap_eq_nil_iff.mpr (fun a _ => rfl)
    rw [hquotes, List.filterMap_map, hnil]
    rfl

/-- A live quote has a timestamp exactly when it has a price: the
dictionaries are assigned together in `data_fetch.py:63-105`. -/
lemma liveQuote_price_iff_qtime (dl : DownloadOutcome) (now : Nat) (t : String) :
    (liveQuote dl now t).price.isSome ↔ (liveQuote dl now t).qtime.isSome := by
  cases dl with
  | multi tbl => cases hc : lookupQ tbl t <;> simp [liveQuote, hc]
  | flat v => cases v <;> simp [liveQuote]
  | raised b => simp [liveQuote]

/-- The cache merge (`data_fetch.py:110-115`) preserves the
price-iff-timestamp coherence of a quote. -/
lemma mergeCached_price_iff_qtime (q : Quote) (c : Option (ℚ × Nat))
    (h : q.price.isSome ↔ q.qtime.isSome) :
    (mergeCached q c).price.isSome ↔ (mergeCached q c).qtime.isSome := by
  unfold mergeCached
  split
  · cases c <;> simp_all
  · simpa using h

/-- Every resolved quote has a timestamp exactly when it has a price. -/
lemma resolveQuotes_price_iff_qtime (tickers : List String) (dl : DownloadOutcome)
    (cachePath : Option CacheState) (now ma : Nat) :
    ∀ p ∈ resolveQuotes tickers dl cachePath now ma,
      p.2.price.isSome ↔ p.2.qtime.isSome := by
  intro p hp
  cases cachePath with
  | none =>
    obtain ⟨t, _, rfl⟩ := List.mem_map.mp hp
    exact liveQuote_price_iff_qtime dl now t
  | some cs =>
    simp only [resolveQuotes] at hp
    revert hp
    split
    · intro hp
      obtain ⟨t, _, rfl⟩ := List.mem_map.mp hp
      exact mergeCached_price_iff_qtime _ _ (liveQuote_price_iff_qtime dl now t)
    · intro hp
      obtain ⟨t, _, rfl⟩ := List.mem_map.mp hp
      exact liveQuote_price_iff_qtime dl now t

/-- `listMax1` is `List.max?`. -/
lemma listMax1_eq (l : List Nat) : listMax1 l = l.max? := by
  cases l <;> rfl

/-- Python's `max` over a nonempty list of naturals is a member and an upper
bound. -/
lemma listMax1_spec {l : List Nat} {m : Nat} (h : listMax1 l = some m) :
    m ∈ l ∧ ∀ x ∈ l, x ≤ m := by
  rw [listMax1_eq] at h
  exact ⟨List.max?_mem (fun a b => max_choice a b) h,
    (List.max?_le_iff (fun a b c => max_le_iff) h).mp le_rfl⟩

/-- C5. The authoritative `fetched_at` of `get_current_prices` equals the
maximum per-ticker `observed_at` over the tickers that received a price
(live or cache); when no ticker received a price it equals call-time `now`.
Stated via the list of timestamps of priced quotes: when that list is empty
`fetchedAt = now`, otherwise `fetchedAt` is a member of and an upper bound
for it. -/
theorem authoritativeTimestampMax (tickers : List String) (dl : DownloadOutcome)
    (cachePath : Option CacheState) (now ma : Nat) :
    ((get_current_prices tickers dl cachePath now ma).quotes.filterMap
        (fun p => if p.2.price.isSome then p.2.qtime else none) = [] →
      (get_current_prices tickers dl cachePath now ma).fetchedAt = now)
    ∧ ((get_current_prices tickers dl cachePath now ma).quotes.filterMap
        (fun p => if p.2.price.isSome then p.2.qtime else none) ≠ [] →
      (get_current_prices tickers dl cachePath now ma).fetchedAt
          ∈ (get_current_prices tickers dl cachePath now ma).quotes.filterMap
            (fun p => if p.2.price.isSome then p.2.qtime else none)
        ∧ ∀ x ∈ (get_current_prices tickers dl cachePath now ma).quotes.filterMap
            (fun p => if p.2.price.isSome then p.2.qtime else none),
            x ≤ (get_current_prices tickers dl cachePath now ma).fetchedAt) := by
  have hq : (get_current_prices tickers dl cachePath now ma).quotes
      = resolveQuotes tickers dl cachePath now ma := rfl
  have hsame : (get_current_prices tickers dl cachePath now ma).quotes.filterMap
      (fun p => if p.2.price.isSome then p.2.qtime else none)
      = (resolveQuotes tickers dl cachePath now ma).filterMap (fun p => p.2.qtime) := by
    rw [hq]
    refine List.filterMap_congr (fun p hp => ?_)
    have hiff := resolveQuotes_price_iff_qtime tickers dl cachePath now ma p hp
    cases hqt : p.2.qtime with
    | none =>
      have : ¬ p.2.price.isSome := by
        rw [hiff, hqt]
        simp
      simp [this, hqt]
    | some x =>
      have : p.2.price.isSome := by
        rw [hiff, hqt]
        rfl
      simp [this, hqt]
  have hfa : (get_current_prices tickers dl cachePath now ma).fetchedAt
      = (listMax1 ((resolveQuotes tickers dl cachePath now ma).filterMap
          (fun p => p.2.qtime))).getD now := rfl
  constructor
  · intro hnil
    rw [hsame] at hnil
    rw [hfa, hnil]
    rfl
  · intro hne
    rw [hsame] at hne
    rcases hm : listMax1 ((resolveQuotes tickers dl cachePath now ma).filterMap
        (fun p => p.2.qtime)) with _ | m
    · rw [listMax1_eq] at hm
      exact absurd (List.max?_eq_none_iff.mp hm) hne
    · obtain ⟨hmem, hub⟩ := listMax1_spec hm
      rw [hsame, hfa, hm]
      exact ⟨hmem, hub⟩

/-- C5 witness: two priced tickers (one live at time 50 via a MultiIndex
frame, none for the second, which falls back to a cached record at time 40)
and the authoritative timestamp is their maximum, 50. -/
theorem authoritativeTimestampMax_witness :
    (get_current_prices ["A", "B"] (.multi [("A", 3)])
        (some (.table [⟨40, "B", 2⟩])) 50 72).fetchedAt
      ∈ (get_current_prices ["A", "B"] (.multi [("A", 3)])
        (some (.table [⟨40, "B", 2⟩])) 50 72).quotes.filterMap
          (fun p => if p.2.price.isSome then p.2.qtime else none)
    ∧ ∀ x ∈ (get_current_prices ["A", "B"] (.multi [("A", 3)])
        (some (.table [⟨40, "B", 2⟩])) 50 72).quotes.filterMap
          (fun p => if p.2.price.isSome then p.2.qtime else none),
        x ≤ (get_current_prices ["A", "B"] (.multi [("A", 3)])
          (some (.table [⟨40, "B", 2⟩])) 50 72).fetchedAt :=
  (authoritativeTimestampMax ["A", "B"] (.multi [("A", 3)])
    (some (.table [⟨40, "B", 2⟩])) 50 72).2 (by decide)

/-- Every row computed in one snapshot call carries the call's timestamp in
its `date` column (`data_fetch.py:226`). -/
lemma snapshotRows_date {holdings : List Holding} {prices : List (String × Option ℚ)}
    {obs : Nat} : ∀ r ∈ snapshotRows holdings prices obs, r.date = obs := by
  intro r hr
  unfold snapshotRows at hr
  obtain ⟨h, _, rfl⟩ := List.mem_map.mp hr
  rfl

/-- The freshly computed rows all fall on the snapshot's day, so filtering
them away by that day empties the list. -/
lemma snapshotRows_filter_ne {holdings : List Holding}
    {prices : List (String × Option ℚ)} {obs d : Nat} (hd : dayOf obs = d) :
    (snapshotRows holdings prices obs).filter (fun r => dayOf r.date ≠ d) = [] := by
  refine List.filter_eq_nil_iff.mpr (fun r hr => ?_)
  have := snapshotRows_date r hr
  simp [this, hd]

/-- Filtering the freshly computed rows by the snapshot's own day keeps all
of them. -/
lemma snapshotRows_filter_eq {holdings : List Holding}
    {prices : List (String × Option ℚ)} {obs d : Nat} (hd : dayOf obs = d) :
    (snapshotRows holdings prices obs).filter (fun r => dayOf r.date = d)
      = snapshotRows holdings prices obs := by
  refine List.filter_eq_self.mpr (fun r hr => ?_)
  have := snapshotRows_date r hr
  simp [this, hd]

/-- One completed snapshot call leaves the store as the other-day rows
followed by the new rows. Two same-day calls collapse to the second, since
the second call's day filter removes everything the first call added. -/
lemma fetch_and_store_snapshot_same_day (store : List SnapRow)
    (h1 : List Holding) (p1 : List (String × Option ℚ)) (obs1 : Nat)
    (h2 : List Holding) (p2 : List (String × Option ℚ)) (obs2 : Nat)
    (hd : dayOf obs1 = dayOf obs2) :
    fetch_and_store_snapshot (fetch_and_store_snapshot store h1 p1 obs1) h2 p2 obs2
      = store.filter (fun r => dayOf r.date ≠ dayOf obs2)
        ++ snapshotRows h2 p2 obs2 := by
  unfold fetch_and_store_snapshot
  rw [List.filter_append, snapshotRows_filter_ne hd, List.append_nil,
    List.filter_filter]
  congr 1
  apply List.filter_congr
  intro r _
  rw [hd]
  exact (Bool.and_self _)

/-- C4. For any store state, after two `fetch_and_store_snapshot` calls whose
timestamps fall on the same UTC day, the store's rows for that day are
exactly the row set computed from the second call's holdings and prices, and
the rows of every other day are exactly what they were before either call
(same content, order and count). -/
theorem dayUpsertIdempotent (store : List SnapRow)
    (h1 : List Holding) (p1 : List (String × Option ℚ)) (obs1 : Nat)
    (h2 : List Holding) (p2 : List (String × Option ℚ)) (obs2 : Nat)
    (hd : dayOf obs1 = dayOf obs2) :
    (fetch_and_store_snapshot (fetch_and_store_snapshot store h1 p1 obs1) h2 p2 obs2).filter
        (fun r => dayOf r.date = dayOf obs2) = snapshotRows h2 p2 obs2
    ∧ (fetch_and_store_snapshot (fetch_and_store_snapshot store h1 p1 obs1) h2 p2 obs2).filter
        (fun r => dayOf r.date ≠ dayOf obs2)
        = store.filter (fun r => dayOf r.date ≠ dayOf obs2) := by
  rw [fetch_and_store_snapshot_same_day store h1 p1 obs1 h2 p2 obs2 hd]
  constructor
  · rw [List.filter_append, snapshotRows_filter_eq rfl,
      List.filter_eq_nil_iff.mpr (fun r hr => ?_), List.nil_append]
    have := List.of_mem_filter hr
    simp at this ⊢
    exact this
  · rw [List.filter_append, snapshotRows_filter_ne rfl, List.append_nil,
      List.filter_filter]
    apply List.filter_congr
    intro r _
    exact (Bool.and_self _)

/-- C4 witness: a store with one old row on day 1; two snapshot calls on
day 0 (timestamps 100 and 200) leave exactly the second call's row set for
day 0 and the day-1 row untouched. -/
theorem dayUpsertIdempotent_witness :
    (fetch_and_store_snapshot
        (fetch_and_store_snapshot [⟨90000, "X", "A", 1, 0, 2, 2, 2, 1⟩]
          [⟨"A", 1, 0, none, none⟩] [("A", some 3)] 100)
        [⟨"A", 1, 0, none, none⟩] [("A", some 4)] 200).filter
        (fun r => dayOf r.date = dayOf 200)
      = snapshotRows [⟨"A", 1, 0, none, none⟩] [("A", some 4)] 200
    ∧ (fetch_and_store_snapshot
        (fetch_and_store_snapshot [⟨90000, "X", "A", 1, 0, 2, 2, 2, 1⟩]
          [⟨"A", 1, 0, none, none⟩] [("A", some 3)] 100)
        [⟨"A", 1, 0, none, none⟩] [("A", some 4)] 200).filter
        (fun r => dayOf r.date ≠ dayOf 200)
      = [⟨90000, "X", "A", 1, 0, 2, 2, 2, 1⟩].filter
          (fun r => dayOf r.date ≠ dayOf 200) :=
  dayUpsertIdempotent [⟨90000, "X", "A", 1, 0, 2, 2, 2, 1⟩]
    [⟨"A", 1, 0, none, none⟩] [("A", some 3)] 100
    [⟨"A", 1, 0, none, none⟩] [("A", some 4)] 200 (by decide)

/-- Sum of a pointwise quotient is the quotient of the sum (ℚ). -/
lemma sum_map_div {α : Type} (l : List α) (f : α → ℚ) (c : ℚ) :
    (l.map (fun x => f x / c)).sum = (l.map f).sum / c := by
  induction l with
  | nil => simp
  | cons a l ih => simp [ih, add_div]

/-- The `current_value` column of a snapshot row set sums to the batch total
computed at `data_fetch.py:208-214`. -/
lemma snapshotRows_sum_cv (holdings : List Holding)
    (prices : List (String × Option ℚ)) (obs : Nat) :
    ((snapshotRows holdings prices obs).map (fun x => x.current_value)).sum
      = snapshotTotal holdings prices := by
  unfold snapshotRows snapshotTotal
  rw [List.map_map]
  rfl

/-- C7. For every holdings list and prices mapping, the snapshot row set
satisfies: `current_value = shares × price` (with an absent price read as 0
inside `priceOf`), every row's `portfolio_value` equals the sum of
`current_value` over the set, `allocation_pct = current_value /
portfolio_value` (0 when the total is not positive), and the allocations sum
to exactly 1 when the total is positive. -/
theorem allocationInvariant (holdings : List Holding)
    (prices : List (String × Option ℚ)) (obs : Nat) :
    (∀ r ∈ snapshotRows holdings prices obs,
        r.current_value = r.shares * r.price
        ∧ r.portfolio_value
            = ((snapshotRows holdings prices obs).map (fun x => x.current_value)).sum
        ∧ r.allocation_pct
            = (if 0 < r.portfolio_value then r.current_value / r.portfolio_value else 0))
    ∧ (0 < ((snapshotRows holdings prices obs).map (fun x => x.current_value)).sum →
        ((snapshotRows holdings prices obs).map (fun x => x.allocation_pct)).sum = 1) := by
  constructor
  · intro r hr
    unfold snapshotRows at hr
    obtain ⟨h, _, rfl⟩ := List.mem_map.mp hr
    refine ⟨rfl, ?_, rfl⟩
    rw [snapshotRows_sum_cv]
  · intro hpos
    rw [snapshotRows_sum_cv] at hpos
    unfold snapshotRows
    rw [List.map_map]
    have hfun : ((fun x : SnapRow => x.allocation_pct)
        ∘ fun h : Holding =>
          ({ date := obs, account := accountOf h, ticker := h.ticker,
             shares := h.shares, cost_basis := h.cost_basis,
             price := priceOf prices h.ticker,
             current_value := h.shares * priceOf prices h.ticker,
             portfolio_value := snapshotTotal holdings prices,
             allocation_pct :=
               if 0 < snapshotTotal holdings prices then
                 h.shares * priceOf prices h.ticker / snapshotTotal holdings prices
               else 0 } : SnapRow))
        = fun h : Holding =>
            (h.shares * priceOf prices h.ticker) / snapshotTotal holdings prices := by
      funext h
      simp [Function.comp_def, if_pos hpos]
    rw [hfun, sum_map_div]
    exact div_self (ne_of_gt hpos)

/-- C7 witness: two holdings priced 5 and 20 at 10 and 5 shares — the batch
total is 150 and the allocations sum to 1. -/
theorem allocationInvariant_witness :
    ((snapshotRows [⟨"A", 10, 0, none, none⟩, ⟨"B", 5, 0, none, none⟩]
        [("A", some 5), ("B", some 20)] 0).map (fun x => x.allocation_pct)).sum = 1 :=
  (allocationInvariant [⟨"A", 10, 0, none, none⟩, ⟨"B", 5, 0, none, none⟩]
    [("A", some 5), ("B", some 20)] 0).2
    (by
      have hA : priceOf [("A", (some 5 : Option ℚ)), ("B", some 20)] "A" = 5 := rfl
      have hB : priceOf [("A", (some 5 : Option ℚ)), ("B", some 20)] "B" = 20 := rfl
      norm_num [snapshotRows, snapshotTotal, hA, hB])

/-- C3 counterexample: the store holds a same-day row (`date` 10, day 0) and
an other-day row (`date` 90000, day 1); a snapshot at timestamp 20 (day 0)
that fails after writing 1 row of the combined frame leaves a store that has
lost the old day-0 row but does not contain the new row — exactly the
partial mix the claim says can never occur. -/
theorem snapshotWriteCounterexample :
    ((⟨10, "X", "A", 1, 0, 2, 2, 2, 1⟩ : SnapRow)
        ∉ fetch_and_store_snapshot_failed
            [⟨10, "X", "A", 1, 0, 2, 2, 2, 1⟩, ⟨90000, "X", "A", 1, 0, 2, 2, 2, 1⟩]
            [⟨"A", 1, 0, none, none⟩] [("A", some 3)] 20 1)
    ∧ ¬ (∀ r ∈ snapshotRows [⟨"A", 1, 0, none, none⟩] [("A", some 3)] 20,
          r ∈ fetch_and_store_snapshot_failed
            [⟨10, "X", "A", 1, 0, 2, 2, 2, 1⟩, ⟨90000, "X", "A", 1, 0, 2, 2, 2, 1⟩]
            [⟨"A", 1, 0, none, none⟩] [("A", some 3)] 20 1) := by decide

/-- C3 (amended). The snapshot write is not all-or-nothing: the source
rewrites the store file in place (`combined_df.to_csv(csv_path)`,
`data_fetch.py:260`, with no temp-file-and-rename step), so for every store
and every nonempty holdings list there is a failure point `k` — failing just
after the retained other-day rows are written — at which the store has lost
every old same-day row while some new row is still missing. -/
theorem snapshotWriteNotAtomic (store : List SnapRow) (holdings : List Holding)
    (prices : List (String × Option ℚ)) (obs : Nat) (hne : holdings ≠ []) :
    ∃ k, (∀ r ∈ store, dayOf r.date = dayOf obs →
            r ∉ fetch_and_store_snapshot_failed store holdings prices obs k)
      ∧ ∃ r ∈ snapshotRows holdings prices obs,
          r ∉ fetch_and_store_snapshot_failed store holdings prices obs k := by
  have hres : fetch_and_store_snapshot_failed store holdings prices obs
      (store.filter (fun r => dayOf r.date ≠ dayOf obs)).length
      = store.filter (fun r => dayOf r.date ≠ dayOf obs) := by
    unfold fetch_and_store_snapshot_failed fetch_and_store_snapshot
    exact List.take_left _ _
  refine ⟨(store.filter (fun r => dayOf r.date ≠ dayOf obs)).length, ?_, ?_⟩
  · intro r _ hday hmem
    rw [hres] at hmem
    have := List.of_mem_filter hmem
    simp at this
    exact this hday
  · have hne' : snapshotRows holdings prices obs ≠ [] := by
      unfold snapshotRows
      simpa using hne
    obtain ⟨r, hr⟩ := List.exists_mem_of_ne_nil _ hne'
    refine ⟨r, hr, ?_⟩
    rw [hres]
    intro hmem
    have hp := List.of_mem_filter hmem
    have hd := snapshotRows_date r hr
    simp [hd] at hp

/-- C3 witness for the amended statement, at the counterexample's inputs. -/
theorem snapshotWriteNotAtomic_witness :
    ∃ k, (∀ r ∈ [(⟨10, "X", "A", 1, 0, 2, 2, 2, 1⟩ : SnapRow),
            ⟨90000, "X", "A", 1, 0, 2, 2, 2, 1⟩], dayOf r.date = dayOf 20 →
            r ∉ fetch_and_store_snapshot_failed
              [⟨10, "X", "A", 1, 0, 2, 2, 2, 1⟩, ⟨90000, "X", "A", 1, 0, 2, 2, 2, 1⟩]
              [⟨"A", 1, 0, none, none⟩] [("A", some 3)] 20 k)
      ∧ ∃ r ∈ snapshotRows [⟨"A", 1, 0, none, none⟩] [("A", some 3)] 20,
          r ∉ fetch_and_store_snapshot_failed
            [⟨10, "X", "A", 1, 0, 2, 2, 2, 1⟩, ⟨90000, "X", "A", 1, 0, 2, 2, 2, 1⟩]
            [⟨"A", 1, 0, none, none⟩] [("A", some 3)] 20 k :=
  snapshotWriteNotAtomic
    [⟨10, "X", "A", 1, 0, 2, 2, 2, 1⟩, ⟨90000, "X", "A", 1, 0, 2, 2, 2, 1⟩]
    [⟨"A", 1, 0, none, none⟩] [("A", some 3)] 20 (by decide)

/-- C8. FX cache freshness: with a cache entry fetched at `t0`, a call at
`now` with `now - t0 < max_age` is answered from the cache — no network
fetch, the requested currencies present in the cached map returned
unchanged, the cache file untouched — while a call at `now - t0 ≥ max_age`
requesting at least one non-base currency runs the network fetch instead of
using the cached entry (`fx.py:43-53` versus `fx.py:57-93`). -/
theorem fxCacheFreshness (currencies : List String) (base : String) (maxAge : Nat)
    (now t0 : Nat) (rs : List (String × ℚ)) (fetch : FxFetchOutcome) :
    ((now : Int) - (t0 : Int) < (maxAge : Int) * 3600 →
      (get_fx_rates currencies base maxAge (.entry ⟨t0, rs⟩) now fetch).didFetch = false
      ∧ (get_fx_rates currencies base maxAge (.entry ⟨t0, rs⟩) now fetch).rates
          = (normCurrs currencies base).filterMap
              (fun c => (lookupRate rs c).map (fun v => (c, v)))
      ∧ (get_fx_rates currencies base maxAge (.entry ⟨t0, rs⟩) now fetch).cacheAfter
          = .entry ⟨t0, rs⟩)
    ∧ ((maxAge : Int) * 3600 ≤ (now : Int) - (t0 : Int) →
        normCurrs currencies base ≠ [] →
        (get_fx_rates currencies base maxAge (.entry ⟨t0, rs⟩) now fetch).didFetch
          = true) := by
  by_cases hc : normCurrs currencies base = []
  · constructor
    · intro _
      refine ⟨?_, ?_, ?_⟩ <;> simp [get_fx_rates, hc]
    · intro _ hne
      exact absurd hc hne
  · constructor
    · intro hfresh
      refine ⟨?_, ?_, ?_⟩ <;> simp [get_fx_rates, hc, hfresh]
    · intro hstale _
      have hnf : ¬ ((now : Int) - (t0 : Int) < (maxAge : Int) * 3600) :=
        not_lt.mpr hstale
      cases fetch <;> simp [get_fx_rates, hc, hnf]

/-- C8 witness: entry fetched at `t0 = 0` with a USD rate; a call one second
later is served from cache without fetching, and a call at exactly 12 hours
runs the fetch. -/
theorem fxCacheFreshness_witness :
    ((get_fx_rates ["USD"] "CAD" 12 (.entry ⟨0, [("USD", 2)]⟩) 1 .err).didFetch = false
      ∧ (get_fx_rates ["USD"] "CAD" 12 (.entry ⟨0, [("USD", 2)]⟩) 1 .err).rates
          = (normCurrs ["USD"] "CAD").filterMap
              (fun c => (lookupRate [("USD", 2)] c).map (fun v => (c, v)))
      ∧ (get_fx_rates ["USD"] "CAD" 12 (.entry ⟨0, [("USD", 2)]⟩) 1 .err).cacheAfter
          = .entry ⟨0, [("USD", 2)]⟩)
    ∧ (get_fx_rates ["USD"] "CAD" 12 (.entry ⟨0, [("USD", 2)]⟩) 43200 .err).didFetch
        = true :=
  ⟨(fxCacheFreshness ["USD"] "CAD" 12 1 0 [("USD", 2)] .err).1 (by decide),
   (fxCacheFreshness ["USD"] "CAD" 12 43200 0 [("USD", 2)] .err).2 (by decide)
     (by decide)⟩

/-- C10. While the FX cache entry is fresh, no network fetch runs and any
requested currency absent from the cached map is silently omitted from the
result (`fx.py:50-53`); once stale, a successful refetch returns and
persists — replacing the previous entry — a rates map containing only
currencies requested in that call (`fx.py:75-87`). -/
theorem fxFreshOmitsAndRefetchReplaces (currencies : List String) (base : String)
    (maxAge : Nat) (now t0 : Nat) (rs : List (String × ℚ)) (fetch : FxFetchOutcome)
    (currencies2 : List String) (now2 : Nat) (baseRates : List (String × ℚ)) :
    ((now : Int) - (t0 : Int) < (maxAge : Int) * 3600 →
      (get_fx_rates currencies base maxAge (.entry ⟨t0, rs⟩) now fetch).didFetch = false
      ∧ ∀ c ∈ normCurrs currencies base, lookupRate rs c = none →
          c ∉ (get_fx_rates currencies base maxAge (.entry ⟨t0, rs⟩) now
            fetch).rates.map Prod.fst)
    ∧ ((maxAge : Int) * 3600 ≤ (now2 : Int) - (t0 : Int) →
        normCurrs currencies2 base ≠ [] →
        ∃ out, (get_fx_rates currencies2 base maxAge (.entry ⟨t0, rs⟩) now2
            (.ok baseRates)).cacheAfter = .entry ⟨now2, out⟩
          ∧ (get_fx_rates currencies2 base maxAge (.entry ⟨t0, rs⟩) now2
              (.ok baseRates)).rates = out
          ∧ ∀ p ∈ out, p.1 ∈ normCurrs currencies2 base) := by
  constructor
  · intro hfresh
    have h1 := (fxCacheFreshness currencies base maxAge now t0 rs fetch).1 hfresh
    refine ⟨h1.1, ?_⟩
    intro c hcmem hnone hmem
    rw [h1.2.1] at hmem
    obtain ⟨p, hp, hfst⟩ := List.mem_map.mp hmem
    obtain ⟨c', _, hc'⟩ := List.mem_filterMap.mp hp
    obtain ⟨v, hv, hpv⟩ := Option.map_eq_some'.mp hc'
    have hcc : c' = c := by
      rw [← hfst, ← hpv]
    rw [hcc, hnone] at hv
    exact Option.noConfusion hv
  · intro hstale hne
    by_cases hc2 : normCurrs currencies2 base = []
    · exact absurd hc2 hne
    · refine ⟨(normCurrs currencies2 base).filterMap (fun c =>
        match lookupRate baseRates c with
        | some v => if v = 0 then none else some (c, 1 / v)
        | none => none), ?_, ?_, ?_⟩
      · simp only [get_fx_rates, if_neg hc2, if_neg (not_lt.mpr hstale)]
      · simp only [get_fx_rates, if_neg hc2, if_neg (not_lt.mpr hstale)]
      · intro p hp
        obtain ⟨c, hcmem, hsome⟩ := List.mem_filterMap.mp hp
        cases hl : lookupRate baseRates c with
        | none => simp [hl] at hsome
        | some v =>
          simp only [hl] at hsome
          by_cases hv0 : v = 0
          · rw [if_pos hv0] at hsome
            exact Option.noConfusion hsome
          · rw [if_neg hv0] at hsome
            have hpc : (c, 1 / v) = p := Option.some.inj hsome
            rw [← hpc]
            exact hcmem

/-- C10 witness: fresh case — EUR requested but absent from the cached map
is omitted with no fetch; stale case — the refetch persists only the
requested currencies. -/
theorem fxFreshOmitsAndRefetchReplaces_witness :
    ((get_fx_rates ["USD", "EUR"] "CAD" 12 (.entry ⟨0, [("USD", 2)]⟩) 1
        .err).didFetch = false
      ∧ ∀ c ∈ normCurrs ["USD", "EUR"] "CAD", lookupRate [("USD", 2)] c = none →
          c ∉ (get_fx_rates ["USD", "EUR"] "CAD" 12 (.entry ⟨0, [("USD", 2)]⟩) 1
            .err).rates.map Prod.fst)
    ∧ ∃ out, (get_fx_rates ["EUR"] "CAD" 12 (.entry ⟨0, [("USD", 2)]⟩) 50000
        (.ok [("EUR", 4)])).cacheAfter = .entry ⟨50000, out⟩
      ∧ (get_fx_rates ["EUR"] "CAD" 12 (.entry ⟨0, [("USD", 2)]⟩) 50000
          (.ok [("EUR", 4)])).rates = out
      ∧ ∀ p ∈ out, p.1 ∈ normCurrs ["EUR"] "CAD" :=
  ⟨(fxFreshOmitsAndRefetchReplaces ["USD", "EUR"] "CAD" 12 1 0 [("USD", 2)] .err
      ["EUR"] 50000 [("EUR", 4)]).1 (by decide),
   (fxFreshOmitsAndRefetchReplaces ["USD", "EUR"] "CAD" 12 1 0 [("USD", 2)] .err
      ["EUR"] 50000 [("EUR", 4)]).2 (by decide) (by decide)⟩

/-- C1 witness for the amended statement: the hypotheses hold for a raised
download over a missing cache. -/
theorem totalFailureAllAbsent_witness :
    (∀ p ∈ (get_current_prices ["AAA"] (.raised true) (some .missing) 3 72).quotes,
      p.2.price = none)
    ∧ (get_current_prices ["AAA"] (.raised true) (some .missing) 3 72).source = "unknown" :=
  totalFailureAllAbsent ["AAA"] (.raised true) .missing 3 72
    (fun _ _ => rfl) (fun _ _ => rfl)

/-- C2 counterexample: with a clear session state, a rate-limited download
(`YFRateLimitError`) observed at time `T = 1000` does NOT set the
process-wide rate-limit state to `T + 3600`: `get_current_prices` catches
the rate-limit exception internally (`data_fetch.py:86-105`) and returns
normally, so the app's `try` branch succeeds and clears
`rate_limited_until` (`app.py:324`); the `except` handler that would arm it
(`app.py:329-337`) never runs. -/
theorem rateLimitNotArmedCounterexample :
    (appPriceStep ⟨[], none, none, none, none⟩ ["AAA"] 1000 (.raised true)
      .missing).state.rateLimitedUntil = none
    ∧ (appPriceStep ⟨[], none, none, none, none⟩ ["AAA"] 1000 (.raised true)
      .missing).state.rateLimitedUntil ≠ some 4600 := by decide

/-- C2 (amended). A rate-limit error during the live download never arms the
process-wide cooldown: any run of the price block that performs the live
fetch ends with `rate_limited_until` cleared, whatever the download outcome
(first conjunct). The skip half of the claim does hold: while
`rate_limited_until = b` is armed and `now < b`, a price-block run with an
empty session cache performs no live fetch and serves prices only from the
historical CSV cache (second and third conjuncts). -/
theorem rateLimitSkipOnlyAmended (s : SessionState) (tickers : List String)
    (now : Nat) (dl : DownloadOutcome) (cs : CacheState) (b : Nat)
    (hb : s.rateLimitedUntil = some b) (hnow : now < b)
    (hempty : s.pricesCache = []) (ht : tickers ≠ []) :
    (∀ (s' : SessionState) (t' : List String) (n' : Nat) (dl' : DownloadOutcome)
        (cs' : CacheState), (appPriceStep s' t' n' dl' cs').didLiveFetch = true →
        (appPriceStep s' t' n' dl' cs').state.rateLimitedUntil = none)
    ∧ (appPriceStep s tickers now dl cs).didLiveFetch = false
    ∧ (appPriceStep s tickers now dl cs).prices
        = (get_cached_prices tickers cs now 72).map
            (fun p => (p.1, p.2.map (fun x => x.1))) := by
  refine ⟨?_, ?_⟩
  · intro s' t' n' dl' cs'
    simp only [appPriceStep]
    split
    · split
      · split
        · intro h
          simp at h
        · intro h
          simp at h
      · intro _
        rfl
    · intro h
      simp at h
  · have hexp : expireCooldown s now = s := by
      simp [expireCooldown, hb, hnow]
    have hblocked : isBlocked s now = true := by
      simp [isBlocked, hb, hnow]
    have hcached : (get_cached_prices tickers cs now 72).map
        (fun p => (p.1, p.2.map (fun x => x.1))) ≠ [] := by
      simpa [get_cached_prices] using ht
    constructor
    · simp [appPriceStep, hexp, hempty, hblocked, hcached]
    · simp [appPriceStep, hexp, hempty, hblocked, hcached]

/-- C2 witness for the amended statement: cooldown armed until 5000, a call
at 1000 with an empty session cache skips the live fetch and serves the
CSV cache. -/
theorem rateLimitSkipOnlyAmended_witness :
    (appPriceStep ⟨[], none, none, some 5000, none⟩ ["AAA"] 1000 (.raised true)
      .missing).didLiveFetch = false
    ∧ (appPriceStep ⟨[], none, none, some 5000, none⟩ ["AAA"] 1000 (.raised true)
      .missing).prices
        = (get_cached_prices ["AAA"] .missing 1000 72).map
            (fun p => (p.1, p.2.map (fun x => x.1))) :=
  (rateLimitSkipOnlyAmended ⟨[], none, none, some 5000, none⟩ ["AAA"] 1000
    (.raised true) .missing 5000 rfl (by decide) rfl (by decide)).2
